import Mathlib

/-!
# Saved schedules manager (`js/saved-schedules-manager.js`)

A shallow embedding of the event listeners installed by
`setupSavedSchedulesListeners`: the `load` action of the saved-schedule list
(rehydration of the persisted days and recomputation of the participation
tally), the confirm button of the action modal, and the button that clears the
loaded schedule.

Conventions of the embedding.

* Listeners are functions on an explicit `Estado` (the DOM elements and the
  shared array `escalaAtual` that the module touches).  Calls to imported
  collaborators (`showToast`, `renderEscalaEmCards`, `salvarDados`, ...) are
  appended, in program order, to the trace `Estado.efeitos`.
* `new Date(string)` uses the host's date parser; it is the parameter
  `Ambiente.parse`, where `none` stands for the time value `NaN`.
* A thrown `TypeError` is `Except.error`.  The file has `import` and `export`
  declarations, so it is an ES module and all of its code is strict.
* The tally object `justificationDataRecalculado` is created by `{}` and is
  therefore an ordinary object whose prototype is `Object.prototype`;
  `JustificationData` keeps its own properties and what the two loops can do
  to its prototype link.  Three rules of the language are used: an assignment
  to the key `__proto__` of an ordinary object runs the setter inherited from
  `Object.prototype`, which replaces the prototype and adds no own property; a
  read of a key that is not an own property goes up the prototype chain; and
  strict code throws a `TypeError` when it assigns a property of a primitive
  number.
* Elements that the source dereferences without a null check
  (`#resultadoEscala`, `#balanceIndexContainer`, ...) are always present;
  elements it looks up under a null check are optional.
-/

namespace SavedSchedules

/-! ## Data model -/

/-- A roster member or an assignee reference; only `nome` is read by the module. -/
structure Membro where
  nome : String
deriving DecidableEq, Repr

/-- A day of a schedule: `{ data, selecionados }`.  The type of `data` is a
string for a persisted day and a `Date` object after rehydration. -/
structure Dia (δ : Type) where
  data : δ
  selecionados : List Membro
deriving DecidableEq, Repr

/-- A JavaScript `Date` object, reduced to its time value (milliseconds since
the epoch); `none` is `NaN`, the time value of an invalid date. -/
structure JSDate where
  time : Option Int
deriving DecidableEq, Repr

/-- A persisted day: the date is the string stored in the database. -/
abbrev DiaSalvo := Dia String

/-- A rehydrated day: the date is a `Date` object. -/
abbrev DiaValido := Dia JSDate

/-- A saved schedule record `{ id, nome, dias }`. -/
structure Escala where
  id : String
  nome : String
  dias : List DiaSalvo
deriving DecidableEq, Repr

/-- The error a listener can throw. -/
inductive JSError where
  | typeError
deriving DecidableEq, Repr

/-! ## Rehydration (source lines 71-73) -/

/-- The call `new Date(v)` on a string, with the host parser `parse`. -/
def newDate (parse : String → Option Int) (v : String) : JSDate :=
  ⟨parse v⟩

/-- The method `Date.prototype.getTime`. -/
def JSDate.getTime (d : JSDate) : Option Int :=
  d.time

/-- The global `isNaN` applied to a time value. -/
def isNaN (t : Option Int) : Bool :=
  t.isNone

/-- Truthiness of a `Date` object: every object is truthy. -/
def JSDate.truthy (_ : JSDate) : Bool :=
  true

/-- The constant `diasComDatasValidas` of the `load` action:
`escala.dias.map(dia => ({ ...dia, data: new Date(dia.data) }))
   .filter(dia => dia.data && !isNaN(dia.data.getTime()))`. -/
def diasComDatasValidas (parse : String → Option Int) (escala : Escala) : List DiaValido :=
  (escala.dias.map (fun dia => ({ data := newDate parse dia.data, selecionados := dia.selecionados } : DiaValido))).filter
    (fun dia => dia.data.truthy && !isNaN dia.data.getTime)

/-! ## The tally object (source lines 83-93) -/

/-- The object `justificationDataRecalculado`.

* `own` : its own properties in the order the object enumerates them (array
  indices ascending, then the other keys in creation order), each one an
  object `{ participations: n }` kept as the number `n`;
* `proto` : `none` while the prototype is `Object.prototype`; `some k` once an
  assignment to the key `"__proto__"` has replaced the prototype by the object
  `{ participations: k }` (that assignment runs the `__proto__` setter of
  `Object.prototype` and creates no own property).

Counts are JavaScript numbers; they are exact below `2 ^ 53`, which no array of
assignees reaches, so they are natural numbers here. -/
structure JustificationData where
  own : List (String × Nat)
  proto : Option Nat
deriving DecidableEq, Repr

/-- The object literal `{}`. -/
def JustificationData.vazio : JustificationData :=
  ⟨[], none⟩

/-- The property names that every ordinary object inherits from
`Object.prototype` (besides the accessor `__proto__`); each holds a function. -/
def objectPrototypeKeys : List String :=
  ["constructor", "__defineGetter__", "__defineSetter__", "hasOwnProperty",
   "__lookupGetter__", "__lookupSetter__", "isPrototypeOf", "propertyIsEnumerable",
   "toString", "valueOf", "toLocaleString"]

/-- What a property read `justificationDataRecalculado[k]` can return. -/
inductive Valor where
  /-- No property of that name on the object or its prototype chain. -/
  | undefined
  /-- An own property: the object `{ participations: n }`. -/
  | entrada (n : Nat)
  /-- The replaced prototype object `{ participations: k }`, read through `__proto__`. -/
  | prototipo (k : Nat)
  /-- The number `k`, the property `participations` inherited from the replaced prototype. -/
  | numero (k : Nat)
  /-- A built-in object or function inherited from `Object.prototype`. -/
  | nativo
deriving DecidableEq, Repr

/-- The array index a property key stands for, if any: a canonical decimal
numeral (digits only, no leading zero except `"0"` itself) below `2 ^ 32 - 1`. -/
def arrayIndex (k : String) : Option Nat :=
  let cs := k.toList
  if cs.all Char.isDigit && !cs.isEmpty && (cs.head? != some '0' || cs.length == 1) then
    let n := cs.foldl (fun acc c => 10 * acc + (c.toNat - 48)) 0
    if n < 2 ^ 32 - 1 then some n else none
  else none

/-- The order in which an ordinary object lists a new key `k` against an
existing key `k'`: array indices first, in ascending numeric order; every
other key after the keys created before it. -/
def vemAntes (k k' : String) : Bool :=
  match arrayIndex k, arrayIndex k' with
  | some a, some b => decide (a < b)
  | some _, none => true
  | none, _ => false

/-- Creation of the own property `k`, with value `{ participations: 0 }`, at
the place the object enumerates it. -/
def inserirNovo : List (String × Nat) → String → List (String × Nat)
  | [], k => [(k, 0)]
  | (k', n) :: rest, k =>
    if vemAntes k k' then (k, 0) :: (k', n) :: rest else (k', n) :: inserirNovo rest k

/-- Own-property assignment of `{ participations: 0 }` under key `k`: an existing
key keeps its place and gets the fresh value, a new key is created.  The list
is kept in the enumeration order of the object (the order of `Object.keys`). -/
def upsertZero (own : List (String × Nat)) (k : String) : List (String × Nat) :=
  if k ∈ own.map Prod.fst then own.map (fun p => if p.1 = k then (p.1, 0) else p)
  else inserirNovo own k

/-- The assignment `justificationDataRecalculado[k] = { participations: 0 }`. -/
def JustificationData.setZero (t : JustificationData) (k : String) : JustificationData :=
  if k = "__proto__" then { t with proto := some 0 }
  else { t with own := upsertZero t.own k }

/-- The read `justificationDataRecalculado[k]`: own property first, then the
prototype chain. -/
def JustificationData.get (t : JustificationData) (k : String) : Valor :=
  match t.own.lookup k with
  | some n => .entrada n
  | none =>
    if k = "__proto__" then
      match t.proto with
      | some c => .prototipo c
      | none => .nativo
    else
      match t.proto with
      | some c =>
        if k = "participations" then .numero c
        else if k ∈ objectPrototypeKeys then .nativo else .undefined
      | none => if k ∈ objectPrototypeKeys then .nativo else .undefined

/-- JavaScript truthiness of a read value: objects are truthy, `undefined` and
the number `0` are falsy. -/
def Valor.truthy : Valor → Bool
  | .undefined => false
  | .entrada _ => true
  | .prototipo _ => true
  | .numero k => k != 0
  | .nativo => true

/-- Add one to the count stored under the own key `k`. -/
def bump (own : List (String × Nat)) (k : String) : List (String × Nat) :=
  own.map (fun p => if p.1 = k then (p.1, p.2 + 1) else p)

/-- The body of the inner loop for an assignee named `k`:
`if (justificationDataRecalculado[k]) justificationDataRecalculado[k].participations++`.

On a built-in object the increment stores `NaN` on that built-in and leaves the
tally object as it is.  On a primitive number the module, being strict code,
throws a `TypeError`. -/
def JustificationData.incrementar (t : JustificationData) (k : String) :
    Except JSError JustificationData :=
  if (t.get k).truthy then
    match t.get k with
    | .entrada _ => .ok { t with own := bump t.own k }
    | .prototipo c => .ok { t with proto := some (c + 1) }
    | .numero _ => .error .typeError
    | .nativo => .ok t
    | .undefined => .ok t
  else .ok t

/-- The inner loop `dia.selecionados.forEach(membro => ...)`. -/
def contarDia (t : JustificationData) (dia : DiaValido) : Except JSError JustificationData :=
  dia.selecionados.foldlM (fun acc membro => acc.incrementar membro.nome) t

/-- The object `justificationDataRecalculado` after both loops of the `load`
action: one zero entry per roster member, then one increment per assignee. -/
def justificationDataRecalculado (membros : List Membro) (dias : List DiaValido) :
    Except JSError JustificationData :=
  dias.foldlM contarDia (membros.foldl (fun t m => t.setZero m.nome) JustificationData.vazio)

/-- The tally object after the first loop: one zero entry per roster member. -/
def tallyInicial (membros : List Membro) : JustificationData :=
  membros.foldl (fun t m => t.setZero m.nome) JustificationData.vazio

/-- The keys of the tally: `Object.keys(justificationDataRecalculado)`. -/
def JustificationData.keys (t : JustificationData) : List String :=
  t.own.map Prod.fst

/-- The count the tally holds for a key, when the key is an entry of the tally. -/
def JustificationData.participations (t : JustificationData) (k : String) : Option Nat :=
  t.own.lookup k

/-! ## State, collaborators and the indicator helper -/

/-- The part of a DOM element the module reads or writes. -/
structure Elemento where
  /-- The inline style `style.display`. -/
  display : String
  /-- The content: `textContent` or `innerHTML`. -/
  conteudo : String
deriving DecidableEq, Repr

/-- A call to an imported collaborator (or to a DOM method), with the arguments
the module computes; the imported values passed along unchanged (`restricoes`,
`restricoesPermanentes`, `auth`, `database`) are left out. -/
inductive Efeito where
  | showToast (mensagem : String) (tipo : String)
  | abrirModalAcaoEscala (action : String) (id : Option String) (nome : Option String)
  | renderEscalaEmCards (dias : List DiaValido)
  | configurarDragAndDrop (dias : List DiaValido) (justificationData : JustificationData)
  | exibirIndiceEquilibrio (justificationData : JustificationData)
  | scrollIntoView
  | adicionarEscalaSalva (id : String) (nome : String) (dias : List DiaValido)
  | atualizarNomeEscalaSalva (id : String) (nome : String)
  | excluirEscalaSalva (id : String)
  | salvarDados
  | atualizarTodasAsListas
deriving DecidableEq, Repr

/-- The mutable state the listeners act on.  The two elements of the indicator
and the modal are looked up under a null check in the source, so they may be
absent; the other elements are dereferenced unconditionally. -/
structure Estado where
  /-- The element `#loaded-schedule-indicator`. -/
  indicator : Option Elemento
  /-- The element `#loaded-schedule-name`. -/
  nameSpan : Option Elemento
  /-- The element `#escalaActionModal`. -/
  escalaActionModal : Option Elemento
  /-- The element `#resultadoEscala`. -/
  resultadoEscala : Elemento
  /-- The element `#balanceIndexContainer`. -/
  balanceIndexContainer : Elemento
  /-- The element `#escala-filtros`. -/
  escalaFiltros : Elemento
  /-- The element `#diagnosticReportContainer`. -/
  diagnosticReportContainer : Elemento
  /-- The shared array `escalaAtual` imported from `ui.js`. -/
  escalaAtual : List DiaValido
  /-- The calls made so far, oldest first. -/
  efeitos : List Efeito
deriving DecidableEq, Repr

/-- What the listeners read and never write: the imported collections, the
host's date parser and the clock. -/
structure Ambiente where
  /-- The collection `escalasSalvas` imported from `data-manager.js`. -/
  escalasSalvas : List Escala
  /-- The collection `membros` imported from `data-manager.js`. -/
  membros : List Membro
  /-- The host's parser behind `new Date(string)`; `none` is an invalid date. -/
  parse : String → Option Int
  /-- The value of `Date.now()`. -/
  agora : Nat

/-- Record a call to a collaborator. -/
def Estado.emit (s : Estado) (e : Efeito) : Estado :=
  { s with efeitos := s.efeitos ++ [e] }

/-- The function `fecharModal`. -/
def fecharModal (s : Estado) : Estado :=
  match s.escalaActionModal with
  | some modal => { s with escalaActionModal := some { modal with display := "none" } }
  | none => s

/-- Truthiness of the argument of `_updateLoadedScheduleIndicator`, a string or
`null`: `null` and the empty string are falsy. -/
def nomeTruthy : Option String → Bool
  | none => false
  | some n => n != ""

/-- The function `_updateLoadedScheduleIndicator(nomeEscala)`. -/
def _updateLoadedScheduleIndicator (nomeEscala : Option String) (s : Estado) : Estado :=
  match s.indicator, s.nameSpan with
  | some indicator, some nameSpan =>
    if nomeTruthy nomeEscala then
      { s with
        nameSpan := some { nameSpan with conteudo := nomeEscala.getD "" }
        indicator := some { indicator with display := "flex" } }
    else
      { s with indicator := some { indicator with display := "none" } }
  | _, _ => s

/-! ## The listeners -/

/-- The text of the toast shown when a schedule has no valid day. -/
def mensagemSemDias (nome : String) : String :=
  "Erro: A escala \"" ++ nome ++ "\" não contém dados de dias válidos."

/-- The text of the toast shown after a schedule is loaded. -/
def mensagemCarregada (nome : String) : String :=
  "Escala \"" ++ nome ++ "\" carregada com sucesso."

/-- The `load` branch of the list listener (source lines 68-104). -/
def load (amb : Ambiente) (escala : Escala) (s : Estado) : Except JSError Estado :=
  let dias := diasComDatasValidas amb.parse escala
  if dias.length = 0 then
    .ok (s.emit (.showToast (mensagemSemDias escala.nome) "error"))
  else
    match justificationDataRecalculado amb.membros dias with
    | .error e => .error e
    | .ok jd =>
      let s := s.emit (.renderEscalaEmCards dias)
      let s := s.emit (.configurarDragAndDrop dias jd)
      let s := s.emit (.exibirIndiceEquilibrio jd)
      let s := s.emit (.showToast (mensagemCarregada escala.nome) "success")
      let s := s.emit .scrollIntoView
      .ok (_updateLoadedScheduleIndicator (some escala.nome) s)

/-- The click listener of `#listaEscalasSalvas`.  `alvo` is the button found by
`e.target.closest('button[data-action]')` as its `data-action` and the
`data-id` of its list item, or `none` when the click hit no such button. -/
def listaEscalasSalvasClick (amb : Ambiente) (alvo : Option (String × String)) (s : Estado) :
    Except JSError Estado :=
  match alvo with
  | none => .ok s
  | some (action, escalaId) =>
    match amb.escalasSalvas.find? (fun e => e.id == escalaId) with
    | none => .ok s
    | some escala =>
      if action = "load" then load amb escala s
      else if action = "rename" ∨ action = "delete" then
        .ok (s.emit (.abrirModalAcaoEscala action (some escala.id) (some escala.nome)))
      else .ok s

/-- The click listener of `#btn-salvar-escala`. -/
def btnSalvarEscalaClick (s : Estado) : Estado :=
  if s.escalaAtual.length = 0 then
    s.emit (.showToast "Não há uma escala na tela para salvar." "warning")
  else
    s.emit (.abrirModalAcaoEscala "save" none none)

/-- The characters `String.prototype.trim` strips: ECMAScript white space and
line terminators. -/
def isJSWhiteSpace (c : Char) : Bool :=
  let n := c.toNat
  n = 0x9 || n = 0xA || n = 0xB || n = 0xC || n = 0xD || n = 0x20 || n = 0xA0 ||
  n = 0x1680 || (0x2000 ≤ n && n ≤ 0x200A) || n = 0x2028 || n = 0x2029 ||
  n = 0x202F || n = 0x205F || n = 0x3000 || n = 0xFEFF

/-- The method `String.prototype.trim`. -/
def jsTrim (v : String) : String :=
  String.mk ((v.toList.dropWhile isJSWhiteSpace).reverse.dropWhile isJSWhiteSpace).reverse

/-- The click listener of `#btn-confirmar-escala-acao`, up to the call of
`salvarDados`.  `action` and `escalaId` are the values of the hidden inputs of
the modal; `nomeInput` is the value of `#escalaModalInputName`, or `none` when
that input is absent. -/
def btnConfirmarAcaoClick (amb : Ambiente) (action escalaId : String) (nomeInput : Option String)
    (s : Estado) : Estado :=
  let nome := match nomeInput with
    | some v => jsTrim v
    | none => ""
  if (action = "save" ∨ action = "rename") ∧ nome = "" then
    s.emit (.showToast "O nome da escala não pode estar vazio." "error")
  else
    let s :=
      if action = "save" then
        s.emit (.adicionarEscalaSalva ("escala_" ++ toString amb.agora) nome s.escalaAtual)
      else if action = "rename" then s.emit (.atualizarNomeEscalaSalva escalaId nome)
      else if action = "delete" then s.emit (.excluirEscalaSalva escalaId)
      else s
    s.emit .salvarDados

/-- The continuation passed to `salvarDados(auth, database).then`. -/
def salvarDadosThen (s : Estado) : Estado :=
  (fecharModal (s.emit .atualizarTodasAsListas)).emit (.showToast "Ação concluída com sucesso!" "success")

/-- The click listener of `#btn-clear-loaded-schedule`. -/
def btnClearLoadedScheduleClick (s : Estado) : Estado :=
  let s := { s with resultadoEscala := { s.resultadoEscala with conteudo := "" } }
  let s := { s with escalaAtual := [] }
  let s := { s with balanceIndexContainer := { s.balanceIndexContainer with display := "none" } }
  let s := { s with escalaFiltros := { s.escalaFiltros with conteudo := "" } }
  let s := { s with diagnosticReportContainer := { s.diagnosticReportContainer with display := "none" } }
  let s := _updateLoadedScheduleIndicator none s
  s.emit (.showToast "Visualização da escala limpa." "info")

/-! ## Specification-side definitions

The reference notions the code is compared with. -/

/-- Specification side: a persisted day is valid when its stored date parses. -/
def dataValida (parse : String → Option Int) (dia : DiaSalvo) : Bool :=
  (parse dia.data).isSome

/-- Specification side: the validated day of a persisted day, with the parsed
date and the same assignee list. -/
def reidratar (parse : String → Option Int) (dia : DiaSalvo) : DiaValido :=
  { data := ⟨parse dia.data⟩, selecionados := dia.selecionados }

/-- Specification side: every assignee name of a day sequence, day by day, in order. -/
def nomesSelecionados (dias : List DiaValido) : List String :=
  dias.flatMap (fun dia => dia.selecionados.map Membro.nome)

/-- Specification side: the number of (day, assignee position) pairs of `dias`
whose assignee is named `k`. -/
def contarPares (dias : List DiaValido) (k : String) : Nat :=
  (dias.map (fun dia => (dia.selecionados.filter (fun a => a.nome = k)).length)).sum

/-- Specification side: `dias` with every assignee whose name is not a roster name removed. -/
def somenteDoRol (membros : List Membro) (dias : List DiaValido) : List DiaValido :=
  dias.map (fun dia =>
    { dia with selecionados := dia.selecionados.filter (fun a => a.nome ∈ membros.map Membro.nome) })

/-- The sum of all counts held by the entries of a tally. -/
def JustificationData.total (t : JustificationData) : Nat :=
  (t.own.map Prod.snd).sum

/-! ## Sample data -/

/-- A sample host parser: it accepts the ISO date of the scenario and nothing else. -/
def parseExemplo (v : String) : Option Int :=
  if v = "2024-01-01" then some 1704067200000 else none

/-- The schedule of the scenario: one valid day, one day with an unparseable date. -/
def escalaWeek1 : Escala :=
  { id := "escala_1", nome := "Week1",
    dias := [⟨"2024-01-01", [⟨"Ana"⟩]⟩, ⟨"not-a-date", [⟨"Bob"⟩]⟩] }

/-- A schedule whose days all fail to parse. -/
def escalaInvalida : Escala :=
  { id := "escala_2", nome := "Quebrada",
    dias := [⟨"not-a-date", [⟨"Bob"⟩]⟩, ⟨"", []⟩] }

/-- A saved schedule with one valid day and the empty string as its name. -/
def escalaSemNome : Escala :=
  { id := "escala_3", nome := "", dias := [⟨"2024-01-01", [⟨"Ana"⟩]⟩] }

/-- A page state with every element present, nothing loaded. -/
def estadoInicial : Estado :=
  { indicator := some ⟨"none", ""⟩, nameSpan := some ⟨"", ""⟩,
    escalaActionModal := some ⟨"none", ""⟩,
    resultadoEscala := ⟨"", ""⟩, balanceIndexContainer := ⟨"none", ""⟩,
    escalaFiltros := ⟨"", ""⟩, diagnosticReportContainer := ⟨"none", ""⟩,
    escalaAtual := [], efeitos := [] }

/-- A page state in which the schedule `Week1` is shown as loaded. -/
def estadoWeek1 : Estado :=
  { estadoInicial with indicator := some ⟨"flex", ""⟩, nameSpan := some ⟨"", "Week1"⟩ }

/-- The environment of the scenario: roster Ana, Bob, Carl. -/
def ambExemplo : Ambiente :=
  { escalasSalvas := [escalaWeek1, escalaInvalida],
    membros := [⟨"Ana"⟩, ⟨"Bob"⟩, ⟨"Carl"⟩],
    parse := parseExemplo, agora := 1700000000000 }

/-- A validated day with the given assignee names. -/
def diaCom (nomes : List String) : DiaValido :=
  { data := ⟨some 1704067200000⟩, selecionados := nomes.map Membro.mk }

/-! ## Rehydration: auxiliary facts -/

theorem diasComDatasValidas_eq (parse : String → Option Int) (escala : Escala) :
    diasComDatasValidas parse escala
      = (escala.dias.filter (dataValida parse)).map (reidratar parse) := by
  unfold diasComDatasValidas
  rw [List.filter_map]
  congr 1
  apply List.filter_congr
  intro dia _
  cases h : parse dia.data <;>
    simp [dataValida, newDate, JSDate.truthy, JSDate.getTime, isNaN, h]

theorem diasComDatasValidas_eq_nil_iff (parse : String → Option Int) (escala : Escala) :
    diasComDatasValidas parse escala = [] ↔ ∀ dia ∈ escala.dias, parse dia.data = none := by
  rw [diasComDatasValidas_eq]
  simp [List.filter_eq_nil_iff, dataValida]

@[simp] theorem efeitos_emit (s : Estado) (e : Efeito) : (s.emit e).efeitos = s.efeitos ++ [e] := rfl

@[simp] theorem efeitos_updateLoadedScheduleIndicator (nome : Option String) (s : Estado) :
    (_updateLoadedScheduleIndicator nome s).efeitos = s.efeitos := by
  unfold _updateLoadedScheduleIndicator
  split
  · split <;> rfl
  · rfl

/-! ## Rehydration and the empty-schedule error -/

/-- C1: for a saved schedule with at least one day whose date parses,
`diasComDatasValidas` is exactly the sub-sequence of `escala.dias` made of the
days with a valid date, in their original order, each carrying its parsed date
and the assignee list of the persisted day; it is not empty, every kept day has
a valid time value, and the persisted days it comes from form a sublist of
`escala.dias`. -/
theorem diasComDatasValidas_is_valid_subsequence (parse : String → Option Int) (escala : Escala)
    (h : ∃ dia ∈ escala.dias, (parse dia.data).isSome) :
    diasComDatasValidas parse escala
        = (escala.dias.filter (fun dia => (parse dia.data).isSome)).map
            (fun dia => ({ data := ⟨parse dia.data⟩, selecionados := dia.selecionados } : DiaValido))
      ∧ (escala.dias.filter (fun dia => (parse dia.data).isSome)).Sublist escala.dias
      ∧ (∀ dia ∈ escala.dias, (parse dia.data).isSome →
            dia ∈ escala.dias.filter (fun dia => (parse dia.data).isSome))
      ∧ (∀ dia ∈ diasComDatasValidas parse escala, dia.data.time.isSome)
      ∧ diasComDatasValidas parse escala ≠ [] := by
  have heq := diasComDatasValidas_eq parse escala
  refine ⟨heq, List.filter_sublist _, ?_, ?_, ?_⟩
  · intro dia hmem hv
    exact List.mem_filter.mpr ⟨hmem, by simpa using hv⟩
  · intro dia hmem
    rw [heq, List.mem_map] at hmem
    obtain ⟨d, hd, rfl⟩ := hmem
    have := (List.mem_filter.mp hd).2
    simpa [reidratar, dataValida] using this
  · intro hnil
    obtain ⟨dia, hmem, hv⟩ := h
    have := (diasComDatasValidas_eq_nil_iff parse escala).mp hnil dia hmem
    simp [this] at hv

theorem diasComDatasValidas_is_valid_subsequence_witness :
    (∃ dia ∈ escalaWeek1.dias, (parseExemplo dia.data).isSome)
      ∧ diasComDatasValidas parseExemplo escalaWeek1 = [⟨⟨some 1704067200000⟩, [⟨"Ana"⟩]⟩] :=
  ⟨⟨⟨"2024-01-01", [⟨"Ana"⟩]⟩, by decide, by decide⟩,
   ((diasComDatasValidas_is_valid_subsequence parseExemplo escalaWeek1
      ⟨⟨"2024-01-01", [⟨"Ana"⟩]⟩, by decide, by decide⟩).1).trans (by decide)⟩

/-- C2: the `load` action ends in the empty-schedule error (its only effect is
the toast naming the schedule, of type `error`) if and only if no day of the
schedule has a valid date; in that case no validated day is produced, and a
schedule with zero days is such a case. -/
theorem load_fails_iff_no_valid_day (amb : Ambiente) (escala : Escala) (s : Estado) :
    (load amb escala s
        = .ok (s.emit (.showToast ("Erro: A escala \"" ++ escala.nome
              ++ "\" não contém dados de dias válidos.") "error"))
      ↔ ∀ dia ∈ escala.dias, amb.parse dia.data = none)
    ∧ ((∀ dia ∈ escala.dias, amb.parse dia.data = none) →
        diasComDatasValidas amb.parse escala = [])
    ∧ (escala.dias = [] →
        load amb escala s
          = .ok (s.emit (.showToast ("Erro: A escala \"" ++ escala.nome
              ++ "\" não contém dados de dias válidos.") "error"))) := by
  have key : load amb escala s
        = .ok (s.emit (.showToast ("Erro: A escala \"" ++ escala.nome
              ++ "\" não contém dados de dias válidos.") "error"))
      ↔ ∀ dia ∈ escala.dias, amb.parse dia.data = none := by
    rw [← diasComDatasValidas_eq_nil_iff]
    constructor
    · intro hload
      by_contra hne
      have hlen : ¬ (diasComDatasValidas amb.parse escala).length = 0 := by
        simpa [List.length_eq_zero] using hne
      unfold load at hload
      simp only [hlen, if_false] at hload
      cases hj : justificationDataRecalculado amb.membros (diasComDatasValidas amb.parse escala) with
      | error e => simp [hj] at hload
      | ok jd =>
        simp only [hj] at hload
        have h2 := congrArg (fun r => r.toOption.map (fun st => st.efeitos.length)) hload
        simp [Except.toOption] at h2
    · intro hnil
      unfold load
      simp [hnil, mensagemSemDias]
  refine ⟨key, (diasComDatasValidas_eq_nil_iff _ _).mpr, ?_⟩
  intro hdias
  exact key.mpr (by simp [hdias])

theorem load_fails_iff_no_valid_day_witness :
    (∀ dia ∈ escalaInvalida.dias, ambExemplo.parse dia.data = none)
      ∧ load ambExemplo escalaInvalida estadoInicial
        = .ok (estadoInicial.emit (.showToast
            "Erro: A escala \"Quebrada\" não contém dados de dias válidos." "error")) :=
  ⟨by decide,
   ((load_fails_iff_no_valid_day ambExemplo escalaInvalida estadoInicial).1.mpr (by decide)).trans
     (congrArg Except.ok (by decide))⟩

/-! ## The tally on a roster with no member named `__proto__` -/

theorem bump_of_lookup_none (own : List (String × Nat)) (k : String)
    (h : own.lookup k = none) : bump own k = own := by
  induction own with
  | nil => rfl
  | cons p rest ih =>
    obtain ⟨k', n⟩ := p
    rw [List.lookup_cons] at h
    by_cases hk : k = k'
    · subst hk
      simp at h
    · have hbeq : (k == k') = false := by simpa using hk
      rw [hbeq] at h
      have hk' : ¬ k' = k := fun e => hk e.symm
      simp only [bump, List.map_cons, hk', if_false]
      congr 1
      exact ih h

theorem incrementar_of_proto_none (t : JustificationData) (k : String) (h : t.proto = none) :
    t.incrementar k = .ok { t with own := bump t.own k } := by
  obtain ⟨own, proto⟩ := t
  simp only at h
  subst h
  unfold JustificationData.incrementar JustificationData.get
  cases hl : own.lookup k with
  | some n => simp [Valor.truthy]
  | none =>
    have hb := bump_of_lookup_none own k hl
    simp only [hb]
    by_cases h1 : k = "__proto__"
    · simp [h1, Valor.truthy]
    · by_cases h2 : k ∈ objectPrototypeKeys
      · simp [h1, h2, Valor.truthy]
      · simp [h1, h2, Valor.truthy]

theorem foldlM_incrementar_of_proto_none (ks : List Membro) (t : JustificationData)
    (h : t.proto = none) :
    ks.foldlM (fun acc membro => acc.incrementar membro.nome) t
      = .ok { t with own := (ks.map Membro.nome).foldl bump t.own } := by
  induction ks generalizing t with
  | nil => rfl
  | cons m rest ih =>
    rw [List.foldlM_cons, incrementar_of_proto_none t m.nome h]
    exact ih { t with own := bump t.own m.nome } h

theorem contarDia_of_proto_none (dia : DiaValido) (t : JustificationData) (h : t.proto = none) :
    contarDia t dia
      = .ok { t with own := (dia.selecionados.map Membro.nome).foldl bump t.own } :=
  foldlM_incrementar_of_proto_none dia.selecionados t h

theorem foldlM_contarDia_of_proto_none (dias : List DiaValido) (t : JustificationData)
    (h : t.proto = none) :
    dias.foldlM contarDia t
      = .ok { t with own := (nomesSelecionados dias).foldl bump t.own } := by
  induction dias generalizing t with
  | nil => rfl
  | cons dia rest ih =>
    rw [List.foldlM_cons, contarDia_of_proto_none dia t h]
    refine (ih { t with own := (dia.selecionados.map Membro.nome).foldl bump t.own } h).trans ?_
    simp [nomesSelecionados, List.foldl_append]

theorem foldl_bump (ks : List String) (own : List (String × Nat)) :
    ks.foldl bump own = own.map (fun p => (p.1, p.2 + ks.count p.1)) := by
  induction ks generalizing own with
  | nil => simp
  | cons k rest ih =>
    rw [List.foldl_cons, ih]
    simp only [bump, List.map_map]
    apply List.map_congr_left
    intro p _
    obtain ⟨k', n⟩ := p
    by_cases hk : k' = k
    · subst hk
      simp only [Function.comp, if_true, List.count_cons_self, Prod.mk.injEq, true_and]
      omega
    · have hk' : ¬ k = k' := fun e => hk e.symm
      simp [hk, List.count_cons, hk']

theorem mem_keys_inserirNovo (own : List (String × Nat)) (k j : String) :
    j ∈ (inserirNovo own k).map Prod.fst ↔ j = k ∨ j ∈ own.map Prod.fst := by
  induction own with
  | nil => simp [inserirNovo]
  | cons p rest ih =>
    obtain ⟨k', n⟩ := p
    by_cases hv : vemAntes k k' = true
    · simp [inserirNovo, hv]
    · simp only [inserirNovo, hv, List.map_cons, List.mem_cons, ih]
      simp only [Bool.false_eq_true, if_false, List.map_cons, List.mem_cons, ih]
      tauto

theorem nodup_keys_inserirNovo (own : List (String × Nat)) (k : String)
    (hk : k ∉ own.map Prod.fst) (h : (own.map Prod.fst).Nodup) :
    ((inserirNovo own k).map Prod.fst).Nodup := by
  induction own with
  | nil => simp [inserirNovo]
  | cons p rest ih =>
    obtain ⟨k', n⟩ := p
    have hk' : ¬ k = k' := fun e => hk (by simp [e])
    have hkrest : k ∉ rest.map Prod.fst := fun e => hk (by simp [e])
    by_cases hv : vemAntes k k' = true
    · simp only [inserirNovo, hv, if_true, List.map_cons, List.nodup_cons]
      exact ⟨hk, by simpa using h⟩
    · rw [List.map_cons, List.nodup_cons] at h
      simp only [inserirNovo, hv, Bool.false_eq_true, if_false, List.map_cons, List.nodup_cons]
      refine ⟨?_, ih hkrest h.2⟩
      rw [mem_keys_inserirNovo]
      rintro (e | hmem)
      · exact hk' e.symm
      · exact h.1 hmem

theorem zero_inserirNovo (own : List (String × Nat)) (k : String)
    (h : ∀ p ∈ own, p.2 = 0) : ∀ p ∈ inserirNovo own k, p.2 = 0 := by
  induction own with
  | nil =>
    intro p hp
    simp only [inserirNovo, List.mem_singleton] at hp
    rw [hp]
  | cons q rest ih =>
    obtain ⟨k', n⟩ := q
    intro p hp
    by_cases hv : vemAntes k k' = true
    · simp only [inserirNovo, hv, if_true, List.mem_cons] at hp
      rcases hp with hp | hp | hp
      · rw [hp]
      · rw [hp]
        exact h (k', n) (List.mem_cons_self _ _)
      · exact h p (List.mem_cons_of_mem _ hp)
    · simp only [inserirNovo, hv, Bool.false_eq_true, if_false, List.mem_cons] at hp
      rcases hp with hp | hp
      · rw [hp]
        exact h (k', n) (List.mem_cons_self _ _)
      · exact ih (fun r hr => h r (List.mem_cons_of_mem _ hr)) p hp

theorem keys_map_reset (own : List (String × Nat)) (k : String) :
    (own.map (fun p => if p.1 = k then (p.1, 0) else p)).map Prod.fst = own.map Prod.fst := by
  rw [List.map_map]
  apply List.map_congr_left
  intro p _
  by_cases hp : p.1 = k <;> simp [hp]

theorem mem_keys_upsertZero (own : List (String × Nat)) (k j : String) :
    j ∈ (upsertZero own k).map Prod.fst ↔ j = k ∨ j ∈ own.map Prod.fst := by
  unfold upsertZero
  by_cases hk : k ∈ own.map Prod.fst
  · rw [if_pos hk, keys_map_reset]
    constructor
    · exact Or.inr
    · rintro (e | h)
      · rw [e]
        exact hk
      · exact h
  · rw [if_neg hk]
    exact mem_keys_inserirNovo own k j

theorem nodup_keys_upsertZero (own : List (String × Nat)) (k : String)
    (h : (own.map Prod.fst).Nodup) : ((upsertZero own k).map Prod.fst).Nodup := by
  unfold upsertZero
  by_cases hk : k ∈ own.map Prod.fst
  · rw [if_pos hk, keys_map_reset]
    exact h
  · rw [if_neg hk]
    exact nodup_keys_inserirNovo own k hk h

theorem zero_upsertZero (own : List (String × Nat)) (k : String)
    (h : ∀ p ∈ own, p.2 = 0) : ∀ p ∈ upsertZero own k, p.2 = 0 := by
  unfold upsertZero
  by_cases hk : k ∈ own.map Prod.fst
  · rw [if_pos hk]
    intro p hp
    rw [List.mem_map] at hp
    obtain ⟨q, hq, rfl⟩ := hp
    by_cases hqk : q.1 = k
    · simp [hqk]
    · simp only [hqk, if_false]
      exact h q hq
  · rw [if_neg hk]
    exact zero_inserirNovo own k h

/-- What the first loop preserves and builds, started from any tally object
whose prototype is untouched, over members none of whom is named `__proto__`. -/
theorem foldl_setZero_spec (membros : List Membro) (t : JustificationData)
    (hR : "__proto__" ∉ membros.map Membro.nome)
    (hp : t.proto = none) (hn : t.keys.Nodup) (hz : ∀ p ∈ t.own, p.2 = 0) :
    (membros.foldl (fun acc m => acc.setZero m.nome) t).proto = none
      ∧ (membros.foldl (fun acc m => acc.setZero m.nome) t).keys.Nodup
      ∧ (∀ p ∈ (membros.foldl (fun acc m => acc.setZero m.nome) t).own, p.2 = 0)
      ∧ (∀ k, k ∈ (membros.foldl (fun acc m => acc.setZero m.nome) t).keys
            ↔ k ∈ t.keys ∨ k ∈ membros.map Membro.nome) := by
  induction membros generalizing t with
  | nil => exact ⟨hp, hn, hz, fun k => by simp⟩
  | cons m rest ih =>
    have hm : ¬ m.nome = "__proto__" := by
      intro e
      apply hR
      simp [e]
    have hrest : "__proto__" ∉ rest.map Membro.nome := by
      intro e
      apply hR
      simp only [List.map_cons, List.mem_cons]
      exact Or.inr e
    have hstep : t.setZero m.nome = { t with own := upsertZero t.own m.nome } := by
      simp [JustificationData.setZero, hm]
    rw [List.foldl_cons, hstep]
    obtain ⟨h1, h2, h3, h4⟩ := ih { t with own := upsertZero t.own m.nome } hrest hp
      (nodup_keys_upsertZero t.own m.nome hn) (zero_upsertZero t.own m.nome hz)
    refine ⟨h1, h2, h3, ?_⟩
    intro k
    rw [h4 k]
    simp only [JustificationData.keys, mem_keys_upsertZero, List.map_cons, List.mem_cons]
    tauto

theorem tallyInicial_spec (membros : List Membro)
    (hR : "__proto__" ∉ membros.map Membro.nome) :
    (tallyInicial membros).proto = none
      ∧ (tallyInicial membros).keys.Nodup
      ∧ (∀ p ∈ (tallyInicial membros).own, p.2 = 0)
      ∧ (∀ k, k ∈ (tallyInicial membros).keys ↔ k ∈ membros.map Membro.nome) := by
  obtain ⟨h1, h2, h3, h4⟩ := foldl_setZero_spec membros JustificationData.vazio hR rfl
    (by simp [JustificationData.vazio, JustificationData.keys])
    (by simp [JustificationData.vazio])
  refine ⟨h1, h2, h3, ?_⟩
  intro k
  rw [tallyInicial, h4 k]
  simp [JustificationData.vazio, JustificationData.keys]

/-- The entries of the tally are listed as the object enumerates them: array
indices first, ascending, then the other names in roster order. -/
theorem tallyInicial_keys_order :
    (tallyInicial [⟨"10"⟩, ⟨"2"⟩, ⟨"Ana"⟩, ⟨"1"⟩]).keys = ["1", "2", "10", "Ana"] := by
  decide

/-- Closed form of the tally on a roster with no member named `__proto__`: the
computation ends without error, keeps the entries created by the first loop and
gives each the number of occurrences of its key among the assignee names. -/
theorem justificationDataRecalculado_closed_form (membros : List Membro) (dias : List DiaValido)
    (hR : "__proto__" ∉ membros.map Membro.nome) :
    justificationDataRecalculado membros dias
      = .ok { own := (tallyInicial membros).keys.map
                (fun k => (k, (nomesSelecionados dias).count k)),
              proto := none } := by
  obtain ⟨h1, _, h3, _⟩ := tallyInicial_spec membros hR
  have := foldlM_contarDia_of_proto_none dias (tallyInicial membros) h1
  unfold justificationDataRecalculado
  rw [tallyInicial] at this h1
  rw [this, foldl_bump, h1]
  congr 2
  rw [tallyInicial, JustificationData.keys, List.map_map] at *
  apply List.map_congr_left
  intro p hp
  have := h3 p hp
  simp [this]

theorem count_nomesSelecionados (dias : List DiaValido) (k : String) :
    (nomesSelecionados dias).count k = contarPares dias k := by
  induction dias with
  | nil => rfl
  | cons dia rest ih =>
    have hday : List.count k (dia.selecionados.map Membro.nome)
        = (dia.selecionados.filter (fun a => a.nome = k)).length := by
      induction dia.selecionados with
      | nil => rfl
      | cons a as iha =>
        by_cases ha : a.nome = k
        · simp [ha, List.count_cons, iha]
        · simp [ha, List.count_cons, iha]
    simp only [nomesSelecionados, List.flatMap_cons, List.count_append, contarPares,
      List.map_cons, List.sum_cons] at ih ⊢
    rw [ih, hday]

theorem lookup_map_key (keys : List String) (f : String → Nat) (k : String) (hk : k ∈ keys) :
    (keys.map (fun j => (j, f j))).lookup k = some (f k) := by
  induction keys with
  | nil => simp at hk
  | cons j rest ih =>
    by_cases hj : k = j
    · subst hj
      simp [List.lookup_cons]
    · have hbeq : (k == j) = false := by simpa using hj
      rw [List.map_cons, List.lookup_cons, hbeq]
      rcases List.mem_cons.mp hk with e | hmem
      · exact absurd e hj
      · exact ih hmem

theorem nomesSelecionados_somenteDoRol (membros : List Membro) (dias : List DiaValido) :
    nomesSelecionados (somenteDoRol membros dias)
      = (nomesSelecionados dias).filter (fun k => k ∈ membros.map Membro.nome) := by
  induction dias with
  | nil => rfl
  | cons dia rest ih =>
    simp only [nomesSelecionados, somenteDoRol, List.map_cons, List.flatMap_cons,
      List.filter_append] at ih ⊢
    rw [ih]
    congr 1
    rw [List.filter_map]
    rfl

/-- On a nodup key list, the counts of the keys add up to the number of
elements of the list that are keys. -/
theorem sum_count_keys (keys : List String) (hn : keys.Nodup) (l : List String) :
    (keys.map (fun k => l.count k)).sum = (l.filter (fun a => a ∈ keys)).length := by
  induction l with
  | nil => simp
  | cons a rest ih =>
    have hind : (keys.map (fun k => if a = k then 1 else 0)).sum = if a ∈ keys then 1 else 0 := by
      clear ih
      induction keys with
      | nil => simp
      | cons j js ihj =>
        rw [List.nodup_cons] at hn
        rw [List.map_cons, List.sum_cons, ihj hn.2]
        by_cases haj : a = j
        · subst haj
          simp [hn.1]
        · simp [haj]
    have hsplit : (keys.map (fun k => (a :: rest).count k)).sum
        = (keys.map (fun k => rest.count k)).sum
          + (keys.map (fun k => if a = k then 1 else 0)).sum := by
      clear ih hind hn
      induction keys with
      | nil => simp
      | cons j js ihj =>
        simp only [List.map_cons, List.sum_cons, List.count_cons, beq_iff_eq] at ihj ⊢
        rw [ihj]
        omega
    rw [hsplit, ih, hind]
    by_cases ha : a ∈ keys
    · simp [ha]
    · simp [ha]

/-- On a roster with no member named `__proto__`, the tally is computed without
error and its keys are the roster names, each once. -/
theorem tally_keys_of_no_proto (membros : List Membro) (dias : List DiaValido)
    (hR : "__proto__" ∉ membros.map Membro.nome) :
    ∃ t, justificationDataRecalculado membros dias = .ok t
      ∧ t.keys.Nodup ∧ ∀ k, k ∈ t.keys ↔ k ∈ membros.map Membro.nome := by
  obtain ⟨_, h2, _, h4⟩ := tallyInicial_spec membros hR
  refine ⟨_, justificationDataRecalculado_closed_form membros dias hR, ?_, ?_⟩
  · simpa [JustificationData.keys, List.map_map, Function.comp] using h2
  · intro k
    rw [← h4 k]
    simp [JustificationData.keys, List.map_map, Function.comp]

/-- On a roster with no member named `__proto__`, the count of every member is
the number of (day, assignee position) pairs carrying the member's name. -/
theorem tally_participations_of_no_proto (membros : List Membro) (dias : List DiaValido)
    (hR : "__proto__" ∉ membros.map Membro.nome) (m : Membro) (hm : m ∈ membros) :
    ∃ t, justificationDataRecalculado membros dias = .ok t
      ∧ t.participations m.nome = some (contarPares dias m.nome) := by
  obtain ⟨_, _, _, h4⟩ := tallyInicial_spec membros hR
  refine ⟨_, justificationDataRecalculado_closed_form membros dias hR, ?_⟩
  have hk : m.nome ∈ (tallyInicial membros).keys := (h4 m.nome).mpr (List.mem_map_of_mem _ hm)
  simp only [JustificationData.participations]
  rw [lookup_map_key _ (fun k => (nomesSelecionados dias).count k) m.nome hk,
    count_nomesSelecionados]

/-- On a roster with no member named `__proto__`, assignees outside the roster
are ignored. -/
theorem tally_ignores_of_no_proto (membros : List Membro) (dias : List DiaValido)
    (hR : "__proto__" ∉ membros.map Membro.nome) :
    justificationDataRecalculado membros dias
      = justificationDataRecalculado membros (somenteDoRol membros dias) := by
  obtain ⟨_, _, _, h4⟩ := tallyInicial_spec membros hR
  rw [justificationDataRecalculado_closed_form membros dias hR,
    justificationDataRecalculado_closed_form membros _ hR]
  congr 2
  apply List.map_congr_left
  intro k hk
  have hmem : k ∈ membros.map Membro.nome := (h4 k).mp hk
  rw [nomesSelecionados_somenteDoRol, List.count_filter]
  simpa using hmem

/-- On a roster with no member named `__proto__`, the counts add up to the
number of assignee entries whose name is a roster name. -/
theorem tally_total_of_no_proto (membros : List Membro) (dias : List DiaValido)
    (hR : "__proto__" ∉ membros.map Membro.nome) :
    ∃ t, justificationDataRecalculado membros dias = .ok t
      ∧ t.total = ((nomesSelecionados dias).filter
          (fun k => k ∈ membros.map Membro.nome)).length
      ∧ t.total ≤ (nomesSelecionados dias).length
      ∧ (t.total = (nomesSelecionados dias).length
          ↔ ∀ k ∈ nomesSelecionados dias, k ∈ membros.map Membro.nome) := by
  obtain ⟨_, h2, _, h4⟩ := tallyInicial_spec membros hR
  refine ⟨_, justificationDataRecalculado_closed_form membros dias hR, ?_⟩
  have htot : JustificationData.total
        { own := (tallyInicial membros).keys.map (fun k => (k, (nomesSelecionados dias).count k)),
          proto := none }
      = ((nomesSelecionados dias).filter (fun k => k ∈ membros.map Membro.nome)).length := by
    simp only [JustificationData.total, List.map_map]
    have := sum_count_keys (tallyInicial membros).keys h2 (nomesSelecionados dias)
    rw [show (Prod.snd ∘ fun k => (k, List.count k (nomesSelecionados dias)))
        = (fun k => List.count k (nomesSelecionados dias)) from rfl, this]
    congr 1
    apply List.filter_congr
    intro k _
    simp only [decide_eq_decide]
    exact h4 k
  rw [htot]
  refine ⟨rfl, List.length_filter_le _ _, ?_⟩
  rw [List.filter_length_eq_length]
  simp

/-- On a roster with no member named `__proto__`, the tally depends on the days
only through the multiset of assignee names. -/
theorem tally_perm_of_no_proto (membros : List Membro) (dias dias' : List DiaValido)
    (hR : "__proto__" ∉ membros.map Membro.nome)
    (hperm : (nomesSelecionados dias).Perm (nomesSelecionados dias')) :
    justificationDataRecalculado membros dias = justificationDataRecalculado membros dias' := by
  rw [justificationDataRecalculado_closed_form membros dias hR,
    justificationDataRecalculado_closed_form membros dias' hR]
  congr 2
  apply List.map_congr_left
  intro k _
  rw [hperm.count_eq]

/-- Reordering the days permutes the assignee names. -/
theorem nomesSelecionados_perm_dias (dias dias' : List DiaValido) (h : dias.Perm dias') :
    (nomesSelecionados dias).Perm (nomesSelecionados dias') :=
  List.Perm.flatMap_right _ h

/-- Reordering the assignees inside each day permutes the assignee names. -/
theorem nomesSelecionados_perm_selecionados (dias dias' : List DiaValido)
    (h : List.Forall₂ (fun d d' => d.selecionados.Perm d'.selecionados) dias dias') :
    (nomesSelecionados dias).Perm (nomesSelecionados dias') := by
  induction h with
  | nil => exact List.Perm.refl _
  | cons hd _ ih =>
    simp only [nomesSelecionados, List.flatMap_cons] at ih ⊢
    exact List.Perm.append (hd.map _) ih

/-! ## The tally on a roster with a member named `__proto__` -/

/-- C3 at the roster whose only member is named `__proto__`: the tally is
computed without error and has no key at all, although the roster has a
member; the initial assignment went to the prototype link.  This is so on the
empty day sequence and on a sequence of one valid day, which is what a load
tallies. -/
theorem tally_keys_proto_member :
    justificationDataRecalculado [⟨"__proto__"⟩] [] = .ok ⟨[], some 0⟩
      ∧ JustificationData.keys ⟨[], some 0⟩ = []
      ∧ "__proto__" ∈ ([⟨"__proto__"⟩] : List Membro).map Membro.nome
      ∧ justificationDataRecalculado [⟨"__proto__"⟩] [diaCom []] = .ok ⟨[], some 0⟩ :=
  ⟨rfl, rfl, by decide, rfl⟩

/-- C4 at the roster `__proto__`, Ana and one day assigning `__proto__`,
`participations`, Ana: the computation throws a `TypeError` at the second
assignee, so no count is produced for Ana, whose name occurs once.  And on the
day assigning `__proto__` alone, where nothing is thrown, the tally has no
entry for the member `__proto__`, whose name occurs once. -/
theorem tally_count_proto_member :
    (justificationDataRecalculado [⟨"__proto__"⟩, ⟨"Ana"⟩]
        [diaCom ["__proto__", "participations", "Ana"]] = .error .typeError
      ∧ contarPares [diaCom ["__proto__", "participations", "Ana"]] "Ana" = 1)
    ∧ (justificationDataRecalculado [⟨"__proto__"⟩, ⟨"Ana"⟩] [diaCom ["__proto__"]]
        = .ok ⟨[("Ana", 0)], some 1⟩
      ∧ JustificationData.participations ⟨[("Ana", 0)], some 1⟩ "__proto__" = none
      ∧ contarPares [diaCom ["__proto__"]] "__proto__" = 1) :=
  ⟨⟨rfl, by decide⟩, rfl, by decide, by decide⟩

/-- C5 at the roster `__proto__` and one day assigning `__proto__` and then
`participations`: the assignee `participations` matches no roster member, yet
the computation throws a `TypeError`, while the same day without that assignee
is tallied normally. -/
theorem tally_ignore_proto_member :
    justificationDataRecalculado [⟨"__proto__"⟩] [diaCom ["__proto__", "participations"]]
        = .error .typeError
      ∧ somenteDoRol [⟨"__proto__"⟩] [diaCom ["__proto__", "participations"]]
        = [diaCom ["__proto__"]]
      ∧ justificationDataRecalculado [⟨"__proto__"⟩] [diaCom ["__proto__"]]
        = .ok ⟨[], some 1⟩ :=
  ⟨rfl, by decide, rfl⟩

/-- C10 at the roster `__proto__` (pairwise distinct names): every assignee of
the day `__proto__` is a roster member, yet the counts of the tally entries add
up to 0, not 1; and swapping the two assignees of the day `participations`,
`__proto__` turns a normal result into a `TypeError`. -/
theorem tally_total_proto_member :
    (justificationDataRecalculado [⟨"__proto__"⟩] [diaCom ["__proto__"]]
        = .ok ⟨[], some 1⟩
      ∧ JustificationData.total ⟨[], some 1⟩ = 0
      ∧ (nomesSelecionados [diaCom ["__proto__"]]).length = 1)
    ∧ justificationDataRecalculado [⟨"__proto__"⟩] [diaCom ["participations", "__proto__"]]
        = .ok ⟨[], some 1⟩
    ∧ justificationDataRecalculado [⟨"__proto__"⟩] [diaCom ["__proto__", "participations"]]
        = .error .typeError :=
  ⟨⟨rfl, rfl, rfl⟩, rfl, rfl⟩

/-! ## The aborted load, the modal and the indicator -/

/-- C6: a `load` click on a saved schedule with no valid day aborts the reload:
the listener ends normally, the whole state (indicator, name text, every other
element, `escalaAtual`) is what it was, and the trace grows by exactly one
call, the `error` toast; so no rendering collaborator is called and no tally is
handed to anyone. -/
theorem load_without_valid_day_aborts (amb : Ambiente) (escalaId : String) (escala : Escala)
    (s : Estado)
    (hfind : amb.escalasSalvas.find? (fun e => e.id == escalaId) = some escala)
    (hinv : ∀ dia ∈ escala.dias, amb.parse dia.data = none) :
    listaEscalasSalvasClick amb (some ("load", escalaId)) s
        = .ok { s with efeitos := s.efeitos ++
            [.showToast ("Erro: A escala \"" ++ escala.nome
              ++ "\" não contém dados de dias válidos.") "error"] }
      ∧ ∀ s', listaEscalasSalvasClick amb (some ("load", escalaId)) s = .ok s' →
          s'.indicator = s.indicator ∧ s'.nameSpan = s.nameSpan
          ∧ s'.resultadoEscala = s.resultadoEscala
          ∧ s'.balanceIndexContainer = s.balanceIndexContainer
          ∧ s'.escalaFiltros = s.escalaFiltros
          ∧ s'.diagnosticReportContainer = s.diagnosticReportContainer
          ∧ s'.escalaActionModal = s.escalaActionModal
          ∧ s'.escalaAtual = s.escalaAtual
          ∧ (∀ e ∈ s'.efeitos.drop s.efeitos.length,
              e = .showToast (mensagemSemDias escala.nome) "error") := by
  have hnil := (diasComDatasValidas_eq_nil_iff amb.parse escala).mpr hinv
  have hrun : listaEscalasSalvasClick amb (some ("load", escalaId)) s
        = .ok { s with efeitos := s.efeitos ++
            [.showToast ("Erro: A escala \"" ++ escala.nome
              ++ "\" não contém dados de dias válidos.") "error"] } := by
    simp [listaEscalasSalvasClick, hfind, load, hnil, Estado.emit, mensagemSemDias]
  refine ⟨hrun, ?_⟩
  intro s' hs'
  rw [hrun] at hs'
  cases hs'
  simp [mensagemSemDias]

theorem load_without_valid_day_aborts_witness :
    listaEscalasSalvasClick ambExemplo (some ("load", "escala_2")) estadoInicial
        = .ok { estadoInicial with efeitos :=
            [.showToast "Erro: A escala \"Quebrada\" não contém dados de dias válidos." "error"] } :=
  ((load_without_valid_day_aborts ambExemplo "escala_2" escalaInvalida estadoInicial
      (by decide) (by decide)).1).trans (congrArg Except.ok (by decide))

theorem trim_eq_nil_iff (p : Char → Bool) (l : List Char) :
    ((l.dropWhile p).reverse.dropWhile p).reverse = [] ↔ ∀ c ∈ l, p c = true := by
  rw [List.reverse_eq_nil_iff, List.dropWhile_eq_nil_iff]
  constructor
  · intro h
    have hdrop : l.dropWhile p = [] := by
      cases hd : l.dropWhile p with
      | nil => rfl
      | cons a rest =>
        exfalso
        have hne : l.dropWhile p ≠ [] := by rw [hd]; exact List.cons_ne_nil _ _
        have hhead := List.head_dropWhile_not p l hne
        have ha : p a = true := h a (by rw [hd]; simp)
        have hha : (l.dropWhile p).head hne = a := by simp [hd]
        rw [hha, ha] at hhead
        exact Bool.noConfusion hhead
    exact List.dropWhile_eq_nil_iff.mp hdrop
  · intro h x hx
    have hdrop : l.dropWhile p = [] := List.dropWhile_eq_nil_iff.mpr h
    rw [hdrop] at hx
    simp at hx

theorem jsTrim_eq_empty_iff (v : String) :
    jsTrim v = "" ↔ ∀ c ∈ v.toList, isJSWhiteSpace c = true := by
  have hmk : ∀ l : List Char, String.mk l = "" ↔ l = [] := by
    intro l
    constructor
    · intro h
      have := congrArg String.data h
      simpa using this
    · intro h
      rw [h]
  unfold jsTrim
  rw [hmk]
  exact trim_eq_nil_iff isJSWhiteSpace v.toList

/-- C7: in the confirm listener of the modal, `save` and `rename` with a name
made only of white space (so empty after trimming), or with no name input at
all, stop at the `error` toast: nothing is added or renamed and `salvarDados`
is not called.  A name with a character that is not white space reaches
`adicionarEscalaSalva` or `atualizarNomeEscalaSalva` with the trimmed name, and
`delete` reaches `excluirEscalaSalva` whatever the name; each is followed by
`salvarDados`. -/
theorem confirm_validates_name (amb : Ambiente) (escalaId : String) (s : Estado) :
    (∀ action v, (action = "save" ∨ action = "rename") →
        (∀ c ∈ v.toList, isJSWhiteSpace c = true) →
        btnConfirmarAcaoClick amb action escalaId (some v) s
          = s.emit (.showToast "O nome da escala não pode estar vazio." "error"))
    ∧ (∀ action, (action = "save" ∨ action = "rename") →
        btnConfirmarAcaoClick amb action escalaId none s
          = s.emit (.showToast "O nome da escala não pode estar vazio." "error"))
    ∧ (∀ v, (∃ c ∈ v.toList, isJSWhiteSpace c = false) →
        btnConfirmarAcaoClick amb "save" escalaId (some v) s
            = (s.emit (.adicionarEscalaSalva ("escala_" ++ toString amb.agora) (jsTrim v)
                s.escalaAtual)).emit .salvarDados
          ∧ btnConfirmarAcaoClick amb "rename" escalaId (some v) s
            = (s.emit (.atualizarNomeEscalaSalva escalaId (jsTrim v))).emit .salvarDados)
    ∧ (∀ nomeInput, btnConfirmarAcaoClick amb "delete" escalaId nomeInput s
          = (s.emit (.excluirEscalaSalva escalaId)).emit .salvarDados) := by
  refine ⟨?_, ?_, ?_, ?_⟩
  · intro action v hact hws
    have htrim := (jsTrim_eq_empty_iff v).mpr hws
    simp [btnConfirmarAcaoClick, hact, htrim]
  · intro action hact
    simp [btnConfirmarAcaoClick, hact]
  · intro v hv
    have htrim : ¬ jsTrim v = "" := by
      intro h
      obtain ⟨c, hc, hcw⟩ := hv
      have := (jsTrim_eq_empty_iff v).mp h c hc
      simp [this] at hcw
    constructor
    · simp [btnConfirmarAcaoClick, htrim]
    · simp [btnConfirmarAcaoClick, htrim]
  · intro nomeInput
    simp [btnConfirmarAcaoClick]

theorem confirm_validates_name_witness :
    btnConfirmarAcaoClick ambExemplo "save" "" (some " \t\n") estadoInicial
        = estadoInicial.emit (.showToast "O nome da escala não pode estar vazio." "error")
      ∧ btnConfirmarAcaoClick ambExemplo "rename" "escala_1" (some "  Semana 2 ") estadoInicial
        = (estadoInicial.emit (.atualizarNomeEscalaSalva "escala_1" "Semana 2")).emit .salvarDados :=
  ⟨(confirm_validates_name ambExemplo "" estadoInicial).1 "save" " \t\n" (Or.inl rfl) (by decide),
   (((confirm_validates_name ambExemplo "escala_1" estadoInicial).2.2.1 "  Semana 2 "
      ⟨'S', by decide, by decide⟩).2).trans (by decide)⟩

/-- C8 at a saved schedule named `""` with one valid day, loaded in a page
whose indicator shows `Week1`: the load succeeds (the success toast is shown),
yet the indicator ends hidden and the name text still reads `Week1`, because
`_updateLoadedScheduleIndicator` tests the truthiness of its argument and so
treats the empty string like `null`, against its own docstring (a string is
the name to display, `null` hides the indicator). -/
theorem load_empty_name_hides_indicator :
    ∃ s', load ambExemplo escalaSemNome estadoWeek1 = .ok s'
      ∧ Efeito.showToast "Escala \"\" carregada com sucesso." "success" ∈ s'.efeitos
      ∧ s'.indicator = some ⟨"none", ""⟩
      ∧ s'.nameSpan = some ⟨"", "Week1"⟩ :=
  ⟨_, rfl, by decide, by decide, by decide⟩

/-- In a page that has both elements of the indicator, a reload that succeeds
(some day is valid and the tally is computed) of a schedule whose name `n` is
not the empty string leaves the indicator visible (`display` is `flex`) with
`n` as its name text; the rendering collaborators and the success toast have
been called before. -/
theorem load_shows_indicator (amb : Ambiente) (escala : Escala) (s : Estado)
    (indicator nameSpan : Elemento) (jd : JustificationData)
    (hi : s.indicator = some indicator) (hn : s.nameSpan = some nameSpan)
    (hnome : escala.nome ≠ "")
    (hdias : ∃ dia ∈ escala.dias, (amb.parse dia.data).isSome)
    (hjd : justificationDataRecalculado amb.membros (diasComDatasValidas amb.parse escala)
      = .ok jd) :
    ∃ s', load amb escala s = .ok s'
      ∧ s'.indicator = some { indicator with display := "flex" }
      ∧ s'.nameSpan = some { nameSpan with conteudo := escala.nome }
      ∧ s'.efeitos = s.efeitos ++
          [.renderEscalaEmCards (diasComDatasValidas amb.parse escala),
           .configurarDragAndDrop (diasComDatasValidas amb.parse escala) jd,
           .exibirIndiceEquilibrio jd,
           .showToast ("Escala \"" ++ escala.nome ++ "\" carregada com sucesso.") "success",
           .scrollIntoView] := by
  have hne : ¬ (diasComDatasValidas amb.parse escala).length = 0 := by
    rw [List.length_eq_zero, diasComDatasValidas_eq_nil_iff]
    intro hall
    obtain ⟨dia, hmem, hv⟩ := hdias
    simp [hall dia hmem] at hv
  have htruthy : nomeTruthy (some escala.nome) = true := by
    simpa [nomeTruthy] using hnome
  have hload : load amb escala s
      = .ok (_updateLoadedScheduleIndicator (some escala.nome)
          (((((s.emit (.renderEscalaEmCards (diasComDatasValidas amb.parse escala))).emit
            (.configurarDragAndDrop (diasComDatasValidas amb.parse escala) jd)).emit
            (.exibirIndiceEquilibrio jd)).emit
            (.showToast (mensagemCarregada escala.nome) "success")).emit .scrollIntoView)) := by
    unfold load
    simp only [hne, if_false, hjd]
  refine ⟨_, hload, ?_, ?_, ?_⟩
  · simp [_updateLoadedScheduleIndicator, Estado.emit, hi, hn, htruthy]
  · simp [_updateLoadedScheduleIndicator, Estado.emit, hi, hn, htruthy]
  · simp [_updateLoadedScheduleIndicator, Estado.emit, hi, hn, htruthy, mensagemCarregada]

theorem load_shows_indicator_witness :
    ∃ s', load ambExemplo escalaWeek1 estadoInicial = .ok s'
      ∧ s'.indicator = some ⟨"flex", ""⟩
      ∧ s'.nameSpan = some ⟨"", "Week1"⟩ := by
  obtain ⟨s', h1, h2, h3, _⟩ := load_shows_indicator ambExemplo escalaWeek1 estadoInicial
    ⟨"none", ""⟩ ⟨"", ""⟩ ⟨[("Ana", 1), ("Bob", 0), ("Carl", 0)], none⟩ rfl rfl (by decide)
    ⟨⟨"2024-01-01", [⟨"Ana"⟩]⟩, by decide, by decide⟩ rfl
  exact ⟨s', h1, h2, h3⟩

/-- C9: in a page that has both elements of the indicator, the clear listener
is a state reset from every prior state: whatever the indicator showed and
whatever `escalaAtual` held, afterwards the indicator is hidden (`display` is
`none`), `escalaAtual` is empty, the result and filter containers are emptied,
the balance and diagnostic containers are hidden, and the only call made is the
`info` toast, so no tally is recomputed. -/
theorem clear_resets_state (s : Estado) (indicator nameSpan : Elemento)
    (hi : s.indicator = some indicator) (hn : s.nameSpan = some nameSpan) :
    (btnClearLoadedScheduleClick s).indicator = some { indicator with display := "none" }
      ∧ (btnClearLoadedScheduleClick s).escalaAtual = []
      ∧ (btnClearLoadedScheduleClick s).resultadoEscala.conteudo = ""
      ∧ (btnClearLoadedScheduleClick s).escalaFiltros.conteudo = ""
      ∧ (btnClearLoadedScheduleClick s).balanceIndexContainer.display = "none"
      ∧ (btnClearLoadedScheduleClick s).diagnosticReportContainer.display = "none"
      ∧ (btnClearLoadedScheduleClick s).efeitos
          = s.efeitos ++ [.showToast "Visualização da escala limpa." "info"] := by
  simp [btnClearLoadedScheduleClick, _updateLoadedScheduleIndicator, Estado.emit, hi, hn,
    nomeTruthy]

theorem clear_resets_state_witness :
    (btnClearLoadedScheduleClick estadoWeek1).indicator = some ⟨"none", ""⟩
      ∧ (btnClearLoadedScheduleClick estadoWeek1).escalaAtual = [] :=
  ⟨(clear_resets_state estadoWeek1 ⟨"flex", ""⟩ ⟨"", "Week1"⟩ rfl rfl).1,
   (clear_resets_state estadoWeek1 ⟨"flex", ""⟩ ⟨"", "Week1"⟩ rfl rfl).2.1⟩

end SavedSchedules
